import Mathlib

/-!
# hpatuner: the reconciliation pass of `HpaTunerReconciler`

A shallow embedding of `internal/controller/hpatuner_controller.go` and of the
types of `api/v1alpha1/hpatuner_types.go`.

* Go `int32` / `int64` values are held in `Int`; the one arithmetic operation of
  the controller (`hpa_current_min_replica+2`) wraps modulo `2^32` like Go's.
* A Go `float64` that was decoded from JSON is finite; it is held as
  `mant * 2^exp` and compared through its exact rational value.  The conversion
  `float64(int64)` rounds to nearest, ties to even, at 53 bits.
* The object store, the HTTP stack, `strconv.FormatFloat` and the clock are
  collaborators: their answers are fields of `Client` and `Runtime`.
* Every call that mutates something outside the pass (patch, status update,
  event) is appended to the trace of the pass, in program order.
* `Reconcile` is the pass of a reconciler built by `NewHpaTunerReconciler`;
  `ReconcileLiteral` is the pass of a struct literal, whose `eventRecorder`
  may be unset.
-/

namespace Controller

/-! ## Machine integers -/

/-- Range of a Go `int32`. -/
def IsInt32 (x : Int) : Prop := -2147483648 ≤ x ∧ x ≤ 2147483647

/-- Range of a Go `int64`. -/
def IsInt64 (x : Int) : Prop := -9223372036854775808 ≤ x ∧ x ≤ 9223372036854775807

instance (x : Int) : Decidable (IsInt32 x) := by unfold IsInt32; infer_instance

instance (x : Int) : Decidable (IsInt64 x) := by unfold IsInt64; infer_instance

/-- Two's complement reduction of an integer to the `int32` range. -/
def wrapInt32 (x : Int) : Int := (x + 2147483648) % 4294967296 - 2147483648

/-- Go's `+` on `int32` operands. -/
def addInt32 (a b : Int) : Int := wrapInt32 (a + b)

/-! ## Finite `float64` values -/

/-- A finite binary64 value `mant * 2^exp`. -/
structure Float64 where
  mant : Int
  exp : Int
deriving DecidableEq, Repr

namespace Float64

/-- The binary64 format: at most 53 significant bits, exponent of the last bit
between `-1074` and `971`. -/
def Valid (x : Float64) : Prop :=
  -9007199254740992 < x.mant ∧ x.mant < 9007199254740992 ∧ -1074 ≤ x.exp ∧ x.exp ≤ 971

instance (x : Float64) : Decidable x.Valid := by unfold Valid; infer_instance

/-- The exact value. -/
def toRat (x : Float64) : ℚ := (x.mant : ℚ) * (2 : ℚ) ^ x.exp

/-- The significand of `x` once both operands are brought to the exponent
`min x.exp y.exp`. -/
def scaled (x y : Float64) : Int := x.mant * 2 ^ (x.exp - min x.exp y.exp).toNat

/-- Go's `>` on two finite `float64` operands: the exact values are compared. -/
def gt (x y : Float64) : Bool := decide (scaled y x < scaled x y)

end Float64

/-- Number of low bits that do not fit in a 53-bit significand: how often `n`
is halved until it is below `2^53`. -/
def excessBits : Nat → Nat → Nat
  | 0, _ => 0
  | fuel + 1, n => if n < 9007199254740992 then 0 else excessBits fuel (n / 2) + 1

/-- A significand that rounding carried up to `2^53` is brought back to 53 bits. -/
def normalize53 (q e : Nat) : Nat × Nat :=
  if q = 9007199254740992 then (4503599627370496, e + 1) else (q, e)

/-- Rounding of a natural number to 53 significant bits, nearest, ties to even:
the result `(m, e)` stands for `m * 2^e`. -/
def roundNat53 (n : Nat) : Nat × Nat :=
  let e := excessBits n n
  let q := n / 2 ^ e
  let r := n % 2 ^ e
  let half := 2 ^ (e - 1)
  let up := decide (e ≠ 0 ∧ (half < r ∨ (r = half ∧ q % 2 = 1)))
  normalize53 (if up then q + 1 else q) e

/-- The natural number a rounding result stands for. -/
def roundValue (n : Nat) : Nat := (roundNat53 n).1 * 2 ^ (roundNat53 n).2

/-- Go's conversion `float64(x)` of an `int64`. -/
def float64OfInt64 (x : Int) : Float64 :=
  let p := roundNat53 x.natAbs
  if x < 0 then { mant := -(p.1 : Int), exp := (p.2 : Int) }
  else { mant := (p.1 : Int), exp := (p.2 : Int) }

/-! ## Errors -/

/-- The distinctions of `metav1.StatusReason` the controller looks at.  An
error that is not an API status error has reason `Unknown`. -/
inductive StatusReason
  | NotFound
  | Conflict
  | Unknown
deriving DecidableEq, Repr

/-- A Go `error` value. -/
structure Error where
  reason : StatusReason
  message : String
deriving DecidableEq, Repr

/-- The test `errors.IsNotFound(err)`. -/
def IsNotFound (err : Error) : Bool := decide (err.reason = StatusReason.NotFound)

/-- The test `errors.IsConflict(err)`. -/
def IsConflict (err : Error) : Bool := decide (err.reason = StatusReason.Conflict)

/-! ## API types -/

/-- The key `types.NamespacedName`. -/
structure NamespacedName where
  Namespace : String
  Name : String
deriving DecidableEq, Repr

/-- HpaTunerSpec defines the desired state of HpaTuner. -/
structure HpaTunerSpec where
  HpaName : String
  HpaNamespace : String
  MetricEndpoint : String
  MetricThreshold : Int
  HpaMaxCeilingReplicas : Int
deriving DecidableEq, Repr

/-- HpaTunerStatus defines the observed state of HpaTuner. -/
structure HpaTunerStatus where
  LastObservedMin : Int
  LastObservedMax : Int
  LastMetricValue : String
  LastUpdateTime : Nat
deriving DecidableEq, Repr

/-- HpaTuner is the Schema for the hpatuners API. -/
structure HpaTuner where
  Name : String
  Namespace : String
  Spec : HpaTunerSpec
  Status : HpaTunerStatus
deriving DecidableEq, Repr

/-- The reference `autoscalingv2.CrossVersionObjectReference`. -/
structure CrossVersionObjectReference where
  Kind : String
  Name : String
  APIVersion : String
deriving DecidableEq, Repr

/-- The fields of `autoscalingv2.HorizontalPodAutoscalerSpec` the controller
reads or writes.  `MinReplicas` is a pointer in Go. -/
structure HorizontalPodAutoscalerSpec where
  ScaleTargetRef : CrossVersionObjectReference
  MinReplicas : Option Int
  MaxReplicas : Int
deriving DecidableEq, Repr

/-- The object `autoscalingv2.HorizontalPodAutoscaler`. -/
structure HorizontalPodAutoscaler where
  APIVersion : String
  Kind : String
  Name : String
  Namespace : String
  Spec : HorizontalPodAutoscalerSpec
deriving DecidableEq, Repr

/-- The request `ctrl.Request`. -/
structure Request where
  NamespacedName : NamespacedName
deriving DecidableEq, Repr

/-- One second as a `time.Duration` (nanoseconds). -/
def Second : Int := 1000000000

/-- The result `ctrl.Result`. -/
structure Result where
  Requeue : Bool
  RequeueAfter : Int
deriving DecidableEq, Repr

/-- The zero value `ctrl.Result{}`. -/
def Result.empty : Result := { Requeue := false, RequeueAfter := 0 }

/-! ## Collaborators -/

/-- Answers of the object store (`client.Client`) during one pass. -/
structure Client where
  GetHpaTuner : NamespacedName → Except Error HpaTuner
  GetHpa : NamespacedName → Except Error HorizontalPodAutoscaler
  Patch : HorizontalPodAutoscaler → Option Error
  StatusUpdate : HpaTuner → Option Error

/-- The JSON payload of the metric endpoint. -/
structure responseData where
  Error_rate : Float64
  Message : String
deriving DecidableEq, Repr

/-- Answers of the standard library during one pass: `http.NewRequest`,
`http.Client.Do`, `json.Decoder.Decode`, `strconv.FormatFloat(v, 'f', 2, 64)`
and `metav1.Now()`. -/
structure Runtime where
  NewRequest : String → String → Except Error String
  Do : String → Except Error String
  Decode : String → Except Error responseData
  FormatFloat : Float64 → String
  Now : Nat

/-- HpaTunerReconciler reconciles a HpaTuner object.  This is the reconciler as
`NewHpaTunerReconciler` builds it: `Scheme` and `cache` are not used by a pass,
and the calls to `eventRecorder` are entries of the trace. -/
structure HpaTunerReconciler where
  client : Client

/-- The reconciler `r` in front of a store that answers status updates with
`statusAnswer` and everything else as before. -/
def withStatusAnswer (r : HpaTunerReconciler) (statusAnswer : HpaTuner → Option Error) :
    HpaTunerReconciler :=
  { client :=
      { GetHpaTuner := r.client.GetHpaTuner
        GetHpa := r.client.GetHpa
        Patch := r.client.Patch
        StatusUpdate := statusAnswer } }

/-- A call that leaves the pass. -/
inductive Effect
  | event (eventtype reason : String)
  | patch (obj : HorizontalPodAutoscaler) (fieldOwner : String) (force : Bool)
  | statusUpdate (obj : HpaTuner)
deriving DecidableEq, Repr

/-- How a pass ends: it returns, or it panics on a nil dereference (a nil
`MinReplicas`, or a method call on a nil `eventRecorder`). -/
inductive Return
  | ret (result : Result) (err : Option Error)
  | nilDeref
deriving DecidableEq, Repr

/-- A finished pass: how it ended and the calls it made, in order. -/
structure Outcome where
  ret : Return
  trace : List Effect
deriving DecidableEq, Repr

/-! ## The controller -/

/-- The function `getErrorRate`. -/
def getErrorRate (rt : Runtime) (metric_endpoint : String) : Except Error Float64 :=
  match rt.NewRequest "GET" metric_endpoint with
  | .error err => .error err
  | .ok req =>
    match rt.Do req with
    | .error err => .error err
    | .ok body =>
      match rt.Decode body with
      | .error err => .error err
      | .ok respData => .ok respData.Error_rate

/-- The method `getHpa`. -/
def getHpa (r : HpaTunerReconciler) (namespacedName : NamespacedName) :
    Except Error HorizontalPodAutoscaler :=
  match r.client.GetHpa namespacedName with
  | .error err => .error err
  | .ok hpa => .ok hpa

/-- The object `hpaPatch` built by `updateHpaReplicas`: identity, the unchanged
scale target reference and the two bounds. -/
def hpaPatch (hpa : HorizontalPodAutoscaler) (desired_min_replica desired_max_replica : Int) :
    HorizontalPodAutoscaler :=
  { APIVersion := "autoscaling/v2"
    Kind := "HorizontalPodAutoscaler"
    Name := hpa.Name
    Namespace := hpa.Namespace
    Spec :=
      { ScaleTargetRef := hpa.Spec.ScaleTargetRef
        MinReplicas := some desired_min_replica
        MaxReplicas := desired_max_replica } }

/-- The method `updateHpaReplicas`: the error of the server-side apply and the
call it made (field owner `hpatuner-controller`, forced ownership). -/
def updateHpaReplicas (r : HpaTunerReconciler) (hpa : HorizontalPodAutoscaler)
    (desired_min_replica desired_max_replica : Int) : Option Error × List Effect :=
  (r.client.Patch (hpaPatch hpa desired_min_replica desired_max_replica),
    [Effect.patch (hpaPatch hpa desired_min_replica desired_max_replica)
      "hpatuner-controller" true])

/-- The policy object after `updateStatus` has set its four status fields. -/
def withStatus (rt : Runtime) (hpaTuner : HpaTuner) (metricValue : Float64)
    (observedMin observedMax : Int) : HpaTuner :=
  { hpaTuner with
    Status :=
      { LastMetricValue := rt.FormatFloat metricValue
        LastObservedMin := observedMin
        LastObservedMax := observedMax
        LastUpdateTime := rt.Now } }

/-- The method `updateStatus`: the error of the status update and the call it
made. -/
def updateStatus (r : HpaTunerReconciler) (rt : Runtime) (hpaTuner : HpaTuner)
    (metricValue : Float64) (observedMin observedMax : Int) : Option Error × List Effect :=
  (r.client.StatusUpdate (withStatus rt hpaTuner metricValue observedMin observedMax),
    [Effect.statusUpdate (withStatus rt hpaTuner metricValue observedMin observedMax)])

/-- The method `Reconcile`. -/
def Reconcile (r : HpaTunerReconciler) (rt : Runtime) (req : Request) : Outcome :=
  match r.client.GetHpaTuner req.NamespacedName with
  | .error err =>
    if IsNotFound err then ⟨.ret Result.empty none, []⟩
    else ⟨.ret Result.empty (some err), []⟩
  | .ok hpaTunerData =>
    let t1 := [Effect.event "Normal" "Reconciling"]
    let hpaNamespacedName : NamespacedName :=
      { Namespace := hpaTunerData.Spec.HpaNamespace, Name := hpaTunerData.Spec.HpaName }
    match getHpa r hpaNamespacedName with
    | .error err =>
      if IsNotFound err then ⟨.ret Result.empty none, t1⟩
      else ⟨.ret Result.empty (some err), t1⟩
    | .ok hpa =>
      match getErrorRate rt hpaTunerData.Spec.MetricEndpoint with
      | .error err => ⟨.ret Result.empty (some err), t1⟩
      | .ok error_rate =>
        if Float64.gt error_rate (float64OfInt64 hpaTunerData.Spec.MetricThreshold) then
          match hpa.Spec.MinReplicas with
          | none => ⟨.nilDeref, t1⟩
          | some hpa_current_min_replica =>
            let hpa_max_ceiling_replica := hpaTunerData.Spec.HpaMaxCeilingReplicas
            let hpa_desired_max_replica := hpa_max_ceiling_replica
            let hpa_desired_min_replica :=
              min (addInt32 hpa_current_min_replica 2) hpa_desired_max_replica
            let t2 := t1 ++ [Effect.event "Normal" "ThresholdBreached"]
            match updateHpaReplicas r hpa hpa_desired_min_replica hpa_desired_max_replica with
            | (some err, es) =>
              if IsConflict err then ⟨.ret { Requeue := true, RequeueAfter := 0 } none, t2 ++ es⟩
              else if IsNotFound err then ⟨.ret Result.empty none, t2 ++ es⟩
              else ⟨.ret Result.empty (some err), t2 ++ es ++ [Effect.event "Warning" "UpdateFailed"]⟩
            | (none, es) =>
              let t3 := t2 ++ es ++ [Effect.event "Normal" "HPAUpdated"]
              let st := updateStatus r rt hpaTunerData error_rate
                hpa_desired_min_replica hpa_desired_max_replica
              ⟨.ret { Requeue := false, RequeueAfter := 30 * Second } none,
                t3 ++ st.2 ++ [Effect.event "Normal" "ReconciliationComplete"]⟩
        else
          match hpa.Spec.MinReplicas with
          | none => ⟨.nilDeref, t1⟩
          | some hpa_min =>
            let st := updateStatus r rt hpaTunerData error_rate hpa_min hpa.Spec.MaxReplicas
            ⟨.ret { Requeue := false, RequeueAfter := 30 * Second } none,
              t1 ++ st.2 ++ [Effect.event "Normal" "ReconciliationComplete"]⟩

/-! ## A reconciler written as a struct literal

`HpaTunerReconciler` above is what `NewHpaTunerReconciler` returns.  A struct
literal may leave the interface field `eventRecorder` unset, as the test
`should successfully reconcile the resource` does: it sets `client` and
`Scheme` only. -/

/-- The fields of a struct literal `&HpaTunerReconciler{...}` a pass depends
on: the client, and whether `eventRecorder` was set. -/
structure ReconcilerLiteral where
  client : Client
  eventRecorderSet : Bool

/-- The method `Reconcile` on a struct literal.  Loading the policy does not
touch the event recorder, so a failed load returns as usual.  Once the policy
has loaded, `r.eventRecorder.Eventf` is the next call: on an unset field it is
a method call on a nil interface and the pass panics before any other call; on
a set field the pass is `Reconcile`. -/
def ReconcileLiteral (l : ReconcilerLiteral) (rt : Runtime) (req : Request) : Outcome :=
  match l.client.GetHpaTuner req.NamespacedName with
  | .error err =>
    if IsNotFound err then ⟨.ret Result.empty none, []⟩
    else ⟨.ret Result.empty (some err), []⟩
  | .ok _ =>
    if l.eventRecorderSet then Reconcile { client := l.client } rt req
    else ⟨.nilDeref, []⟩

/-! ## What a trace contains -/

/-- The objects of the patch calls of a trace. -/
def patchesOf : List Effect → List HorizontalPodAutoscaler
  | [] => []
  | Effect.patch obj _ _ :: es => obj :: patchesOf es
  | _ :: es => patchesOf es

/-- The objects of the status updates of a trace. -/
def statusWritesOf : List Effect → List HpaTuner
  | [] => []
  | Effect.statusUpdate obj :: es => obj :: statusWritesOf es
  | _ :: es => statusWritesOf es

/-- The results of a pass, or nothing when the pass did not return. -/
def returned (o : Outcome) : Option (Result × Option Error) :=
  match o.ret with
  | .ret result err => some (result, err)
  | .nilDeref => none

/-! ## A store that keeps what is written

Successive passes are linked through the store: a pass reads the objects the
previous pass left there.  The store below holds one policy and one target,
never fails, applies the two bounds of a patch addressed to the target and
keeps the status of a status update. -/

/-- The two objects of the store. -/
structure Cluster where
  tuner : HpaTuner
  hpa : HorizontalPodAutoscaler
deriving DecidableEq, Repr

/-- The error a store answers for a key it does not hold. -/
def notFound : Error := { reason := StatusReason.NotFound, message := "not found" }

/-- The answers of the store `c`. -/
def Cluster.client (c : Cluster) : Client :=
  { GetHpaTuner := fun key =>
      if key = { Namespace := c.tuner.Namespace, Name := c.tuner.Name } then .ok c.tuner
      else .error notFound
    GetHpa := fun key =>
      if key = { Namespace := c.hpa.Namespace, Name := c.hpa.Name } then .ok c.hpa
      else .error notFound
    Patch := fun _ => none
    StatusUpdate := fun _ => none }

/-- The store after the calls of a trace. -/
def Cluster.commit (c : Cluster) : List Effect → Cluster
  | [] => c
  | Effect.patch obj _ _ :: es =>
    Cluster.commit
      (if obj.Namespace = c.hpa.Namespace ∧ obj.Name = c.hpa.Name then
        { c with
          hpa :=
            { c.hpa with
              Spec :=
                { c.hpa.Spec with
                  MinReplicas := obj.Spec.MinReplicas
                  MaxReplicas := obj.Spec.MaxReplicas } } }
      else c) es
  | Effect.statusUpdate obj :: es =>
    Cluster.commit { c with tuner := { c.tuner with Status := obj.Status } } es
  | Effect.event _ _ :: es => Cluster.commit c es

/-- One pass for the policy of the store. -/
def pass (rt : Runtime) (c : Cluster) : Cluster :=
  c.commit (Reconcile { client := c.client } rt
    { NamespacedName := { Namespace := c.tuner.Namespace, Name := c.tuner.Name } }).trace

/-- Consecutive passes, one per runtime of the list. -/
def passes : List Runtime → Cluster → Cluster
  | [], c => c
  | rt :: rts, c => passes rts (pass rt c)

/-- The bounds `(min, max)` of the target of the store. -/
def Cluster.bounds (c : Cluster) : Option Int × Int :=
  (c.hpa.Spec.MinReplicas, c.hpa.Spec.MaxReplicas)

/-! ## Concrete inputs -/

/-- A policy `default/tuner` for the target `default/web`. -/
def demoTuner (threshold ceiling : Int) : HpaTuner :=
  { Name := "tuner"
    Namespace := "default"
    Spec :=
      { HpaName := "web"
        HpaNamespace := "default"
        MetricEndpoint := "http://metrics.default.svc/error-rate"
        MetricThreshold := threshold
        HpaMaxCeilingReplicas := ceiling }
    Status :=
      { LastObservedMin := 0, LastObservedMax := 0, LastMetricValue := "", LastUpdateTime := 0 } }

/-- The policy `default/test-resource` the test creates: only the object
metadata is given, the spec is empty. -/
def testTuner : HpaTuner :=
  { Name := "test-resource"
    Namespace := "default"
    Spec :=
      { HpaName := "", HpaNamespace := "", MetricEndpoint := "", MetricThreshold := 0,
        HpaMaxCeilingReplicas := 0 }
    Status :=
      { LastObservedMin := 0, LastObservedMax := 0, LastMetricValue := "", LastUpdateTime := 0 } }

/-- The request of the test, for `default/test-resource`. -/
def testRequest : Request :=
  { NamespacedName := { Namespace := "default", Name := "test-resource" } }

/-- The error of a get whose key has an empty name: the client refuses the
request before it is sent, and the error carries no API status. -/
def emptyNameError : Error :=
  { reason := StatusReason.Unknown, message := "resource name may not be empty" }

/-- The store of the test: it holds the policy `default/test-resource` and no
target autoscaler. -/
def testClient : Client :=
  { GetHpaTuner := fun key =>
      if key = { Namespace := "default", Name := "test-resource" } then .ok testTuner
      else .error notFound
    GetHpa := fun key => if key.Name = "" then .error emptyNameError else .error notFound
    Patch := fun _ => some notFound
    StatusUpdate := fun _ => none }

/-- A target `default/web` with the given bounds. -/
def demoHpa (minReplicas : Option Int) (maxReplicas : Int) : HorizontalPodAutoscaler :=
  { APIVersion := "autoscaling/v2"
    Kind := "HorizontalPodAutoscaler"
    Name := "web"
    Namespace := "default"
    Spec :=
      { ScaleTargetRef := { Kind := "Deployment", Name := "web", APIVersion := "apps/v1" }
        MinReplicas := minReplicas
        MaxReplicas := maxReplicas } }

/-- The request for `default/tuner`. -/
def demoRequest : Request := { NamespacedName := { Namespace := "default", Name := "tuner" } }

/-- A reconciler whose store answers with the given objects and errors. -/
def demoReconciler (tuner : Except Error HpaTuner) (hpa : Except Error HorizontalPodAutoscaler)
    (patchErr statusErr : Option Error) : HpaTunerReconciler :=
  { client :=
      { GetHpaTuner := fun _ => tuner
        GetHpa := fun _ => hpa
        Patch := fun _ => patchErr
        StatusUpdate := fun _ => statusErr } }

/-- A runtime whose metric endpoint answers with the given payload or error,
at time `1000`; the formatted text of a metric is supplied. -/
def demoRuntime (metric : Except Error Float64) (text : String) : Runtime :=
  { NewRequest := fun _ url => .ok url
    Do := fun _ =>
      match metric with
      | .ok _ => .ok "payload"
      | .error err => .error err
    Decode := fun _ =>
      match metric with
      | .ok v => .ok { Error_rate := v, Message := "" }
      | .error err => .error err
    FormatFloat := fun _ => text
    Now := 1000 }

/-- An error of the `Conflict` kind. -/
def conflictError : Error := { reason := StatusReason.Conflict, message := "conflict" }

/-- An error of no API kind. -/
def otherError : Error := { reason := StatusReason.Unknown, message := "connection refused" }

/-! ## The float model -/

theorem Float64.gt_iff (x y : Float64) : Float64.gt x y = true ↔ y.toRat < x.toRat := by
  unfold Float64.gt Float64.scaled Float64.toRat
  rw [decide_eq_true_iff, min_comm y.exp x.exp]
  have hx : 0 ≤ x.exp - min x.exp y.exp := by
    have := min_le_left x.exp y.exp
    omega
  have hy : 0 ≤ y.exp - min x.exp y.exp := by
    have := min_le_right x.exp y.exp
    omega
  have two0 : (2 : ℚ) ≠ 0 := by norm_num
  have ex : (2 : ℚ) ^ x.exp
      = (2 : ℚ) ^ (x.exp - min x.exp y.exp).toNat * (2 : ℚ) ^ (min x.exp y.exp) := by
    rw [← zpow_natCast, Int.toNat_of_nonneg hx, ← zpow_add₀ two0, sub_add_cancel]
  have ey : (2 : ℚ) ^ y.exp
      = (2 : ℚ) ^ (y.exp - min x.exp y.exp).toNat * (2 : ℚ) ^ (min x.exp y.exp) := by
    rw [← zpow_natCast, Int.toNat_of_nonneg hy, ← zpow_add₀ two0, sub_add_cancel]
  have hpos : (0 : ℚ) < (2 : ℚ) ^ (min x.exp y.exp) := zpow_pos (by norm_num) _
  rw [ex, ey, ← mul_assoc, ← mul_assoc, mul_lt_mul_right hpos]
  constructor
  · intro h
    exact_mod_cast h
  · intro h
    exact_mod_cast h

theorem excessBits_small (fuel n : Nat) (h : n < 9007199254740992) :
    excessBits fuel n = 0 := by
  cases fuel <;> simp [excessBits, h]

theorem excessBits_quot (fuel n : Nat) (h : excessBits fuel n ≠ 0) :
    4503599627370496 ≤ n / 2 ^ excessBits fuel n := by
  induction fuel generalizing n with
  | zero => simp [excessBits] at h
  | succ k ih =>
    by_cases hn : n < 9007199254740992
    · simp [excessBits, hn] at h
    · have he : excessBits (k + 1) n = excessBits k (n / 2) + 1 := by
        simp [excessBits, hn]
      rw [he, pow_succ', ← Nat.div_div_eq_div_mul]
      by_cases h0 : excessBits k (n / 2) = 0
      · rw [h0]
        simp only [pow_zero, Nat.div_one]
        omega
      · exact ih (n / 2) h0

theorem normalize53_value (q e : Nat) :
    (normalize53 q e).1 * 2 ^ (normalize53 q e).2 = q * 2 ^ e := by
  unfold normalize53
  split_ifs with h
  · simp only [h, pow_succ]
    ring
  · rfl

theorem roundValue_cases (n : Nat) :
    roundValue n = n / 2 ^ excessBits n n * 2 ^ excessBits n n ∨
      (roundValue n = (n / 2 ^ excessBits n n + 1) * 2 ^ excessBits n n ∧
        n / 2 ^ excessBits n n * 2 ^ excessBits n n < n) := by
  have hdm := Nat.div_add_mod n (2 ^ excessBits n n)
  unfold roundValue roundNat53
  simp only [normalize53_value]
  by_cases hup : excessBits n n ≠ 0 ∧ (2 ^ (excessBits n n - 1) < n % 2 ^ excessBits n n ∨
      (n % 2 ^ excessBits n n = 2 ^ (excessBits n n - 1) ∧ n / 2 ^ excessBits n n % 2 = 1))
  · right
    have hr : 0 < n % 2 ^ excessBits n n := by
      have : 0 < 2 ^ (excessBits n n - 1) := Nat.pos_pow_of_pos _ (by norm_num)
      rcases hup.2 with h | ⟨h, _⟩ <;> omega
    have hlt : n / 2 ^ excessBits n n * 2 ^ excessBits n n < n := by
      have := Nat.mul_comm (2 ^ excessBits n n) (n / 2 ^ excessBits n n)
      omega
    refine ⟨?_, hlt⟩
    rw [decide_eq_true hup]
    rfl
  · left
    rw [decide_eq_false hup]
    rfl

/-- No binary64 value lies strictly between two neighbours `q * 2^e` and
`(q + 1) * 2^e` of a binade whose significands `q` have 53 bits. -/
theorem float_grid (k x : Int) (q e : Nat) (hk : k < 9007199254740992)
    (hq : 4503599627370496 ≤ q)
    (h : (k : ℚ) * (2 : ℚ) ^ x < ((q : ℚ) + 1) * (2 : ℚ) ^ e) :
    (k : ℚ) * (2 : ℚ) ^ x ≤ (q : ℚ) * (2 : ℚ) ^ e := by
  have two0 : (2 : ℚ) ≠ 0 := by norm_num
  by_contra hc
  push_neg at hc
  rcases le_or_lt (e : Int) x with hxe | hxe
  · obtain ⟨d, hd⟩ := Int.le.dest hxe
    have hpow : (2 : ℚ) ^ x = (2 : ℚ) ^ e * (2 : ℚ) ^ d := by
      rw [← hd, zpow_add₀ two0, zpow_natCast, zpow_natCast]
    have hpos : (0 : ℚ) < (2 : ℚ) ^ e := by positivity
    rw [hpow] at h hc
    have h1 : (k : ℚ) * (2 : ℚ) ^ d * (2 : ℚ) ^ e < ((q : ℚ) + 1) * (2 : ℚ) ^ e := by linarith
    have h2 : (q : ℚ) * (2 : ℚ) ^ e < (k : ℚ) * (2 : ℚ) ^ d * (2 : ℚ) ^ e := by linarith
    have h3 : (k : ℚ) * (2 : ℚ) ^ d < (q : ℚ) + 1 := lt_of_mul_lt_mul_right h1 hpos.le
    have h4 : (q : ℚ) < (k : ℚ) * (2 : ℚ) ^ d := lt_of_mul_lt_mul_right h2 hpos.le
    have h5 : k * 2 ^ d < (q : Int) + 1 := by exact_mod_cast h3
    have h6 : (q : Int) < k * 2 ^ d := by exact_mod_cast h4
    generalize k * 2 ^ d = z at h5 h6
    omega
  · obtain ⟨d, hd⟩ := Int.le.dest (Int.add_one_le_of_lt hxe)
    have hpow : (2 : ℚ) ^ e = (2 : ℚ) ^ x * (2 : ℚ) ^ (d + 1) := by
      have hd' : (e : Int) = x + ((d + 1 : Nat) : Int) := by
        push_cast
        omega
      rw [← zpow_natCast (2 : ℚ) e, hd', zpow_add₀ two0, zpow_natCast]
    have hpos : (0 : ℚ) < (2 : ℚ) ^ x := zpow_pos (by norm_num) _
    rw [hpow] at hc
    have h2 : (q : ℚ) * (2 : ℚ) ^ (d + 1) * (2 : ℚ) ^ x < (k : ℚ) * (2 : ℚ) ^ x := by linarith
    have h4 : (q : ℚ) * (2 : ℚ) ^ (d + 1) < (k : ℚ) := lt_of_mul_lt_mul_right h2 hpos.le
    have h6 : (q : Int) * 2 ^ (d + 1) < k := by exact_mod_cast h4
    have h7 : (1 : Int) ≤ 2 ^ d := one_le_pow₀ (by norm_num)
    have h8 : (q : Int) * 2 ≤ (q : Int) * 2 ^ (d + 1) := by
      rw [pow_succ]
      nlinarith
    omega

theorem float64OfInt64_toRat (t : Int) :
    (float64OfInt64 t).toRat =
      if t < 0 then -(roundValue t.natAbs : ℚ) else (roundValue t.natAbs : ℚ) := by
  unfold float64OfInt64 Float64.toRat roundValue
  split_ifs with h
  · simp only [Int.cast_neg, Int.cast_natCast, zpow_natCast]
    push_cast
    ring
  · simp only [Int.cast_natCast, zpow_natCast]
    push_cast
    ring

/-- Rounding the threshold never moves it across a binary64 value: a metric
that is at most the integer threshold is at most the converted threshold. -/
theorem le_float64OfInt64 (m : Float64) (hm : m.Valid) (t : Int)
    (h : m.toRat ≤ (t : ℚ)) : m.toRat ≤ (float64OfInt64 t).toRat := by
  obtain ⟨hm1, hm2, -, -⟩ := hm
  rw [float64OfInt64_toRat]
  have hdm := Nat.div_add_mod t.natAbs (2 ^ excessBits t.natAbs t.natAbs)
  have hmod := Nat.mod_lt t.natAbs
    (show 2 ^ excessBits t.natAbs t.natAbs > 0 from Nat.pos_pow_of_pos _ (by norm_num))
  have hq := excessBits_quot t.natAbs t.natAbs
  have hcases := roundValue_cases t.natAbs
  generalize excessBits t.natAbs t.natAbs = e at hdm hmod hq hcases
  generalize roundValue t.natAbs = V at hcases
  generalize hQ : t.natAbs / 2 ^ e = Q at hdm hq hcases
  generalize hR : t.natAbs % 2 ^ e = R at hdm hmod
  have hdmq : ((2 : ℚ) ^ e) * (Q : ℚ) + (R : ℚ) = (t.natAbs : ℚ) := by exact_mod_cast hdm
  have hmodq : (R : ℚ) < (2 : ℚ) ^ e := by exact_mod_cast hmod
  have hR0 : (0 : ℚ) ≤ (R : ℚ) := by positivity
  by_cases ht : t < 0
  · simp only [ht, if_true]
    have htq : (t : ℚ) = -(t.natAbs : ℚ) := by
      have hz : ((t.natAbs : Int) : ℚ) = ((-t : Int) : ℚ) := congrArg _ (by omega)
      rw [Int.cast_natCast, Int.cast_neg] at hz
      linarith
    rcases hcases with hV | ⟨hV, hlt⟩
    · have : (V : ℚ) = (Q : ℚ) * (2 : ℚ) ^ e := by exact_mod_cast hV
      linarith
    · have hVq : (V : ℚ) = ((Q : ℚ) + 1) * (2 : ℚ) ^ e := by exact_mod_cast hV
      have he : e ≠ 0 := by
        intro he
        subst he
        simp at hlt hQ
        omega
      have hq' := hq he
      have hltq : (Q : ℚ) * (2 : ℚ) ^ e < (t.natAbs : ℚ) := by exact_mod_cast hlt
      by_contra hc
      push_neg at hc
      have hneg : ((-m.mant : Int) : ℚ) * (2 : ℚ) ^ m.exp = -m.toRat := by
        unfold Float64.toRat
        push_cast
        ring
      have hg := float_grid (-m.mant) m.exp Q e (by omega) hq' (by rw [hneg]; linarith)
      rw [hneg] at hg
      linarith
  · simp only [ht, if_false]
    have htq : (t : ℚ) = (t.natAbs : ℚ) := by
      have hz : ((t.natAbs : Int) : ℚ) = ((t : Int) : ℚ) := congrArg _ (by omega)
      rw [Int.cast_natCast] at hz
      linarith
    rcases hcases with hV | ⟨hV, -⟩
    · have hVq : (V : ℚ) = (Q : ℚ) * (2 : ℚ) ^ e := by exact_mod_cast hV
      by_cases he : e = 0
      · subst he
        simp at hmodq
        have : (R : ℚ) = 0 := by
          have : R = 0 := by exact_mod_cast (by omega : R = 0)
          exact_mod_cast this
        linarith
      · have hq' := hq he
        have hg := float_grid m.mant m.exp Q e hm2 hq'
          (by unfold Float64.toRat at h; linarith)
        unfold Float64.toRat
        linarith
    · have hVq : (V : ℚ) = ((Q : ℚ) + 1) * (2 : ℚ) ^ e := by exact_mod_cast hV
      linarith

/-- Below `2^53` in magnitude, and at `2^53` itself, the conversion is exact. -/
theorem float64OfInt64_exact (t : Int) (h : t.natAbs ≤ 9007199254740992) :
    (float64OfInt64 t).toRat = (t : ℚ) := by
  have hV : roundValue t.natAbs = t.natAbs := by
    rcases Nat.lt_or_ge t.natAbs 9007199254740992 with hlt | hge
    · have he := excessBits_small t.natAbs t.natAbs hlt
      rcases roundValue_cases t.natAbs with hc | ⟨-, hc⟩
      · rw [hc, he]
        simp
      · rw [he] at hc
        simp at hc
    · have heq : t.natAbs = 9007199254740992 := le_antisymm h hge
      rw [heq]
      decide
  have hz : ((t.natAbs : Int) : ℚ) = (if t < 0 then -(t : ℚ) else (t : ℚ)) := by
    split_ifs with ht
    · rw [← Int.cast_neg]
      exact congrArg _ (by omega)
    · exact congrArg _ (by omega)
  rw [Int.cast_natCast] at hz
  rw [float64OfInt64_toRat, hV, hz]
  split_ifs <;> ring

theorem excessBits_lt (fuel n : Nat) (h : n < 9007199254740992 * 2 ^ fuel) :
    n / 2 ^ excessBits fuel n < 9007199254740992 := by
  induction fuel generalizing n with
  | zero =>
    simp only [excessBits, pow_zero, Nat.div_one]
    simpa using h
  | succ k ih =>
    by_cases hn : n < 9007199254740992
    · rw [excessBits_small _ _ hn]
      simpa using hn
    · have he : excessBits (k + 1) n = excessBits k (n / 2) + 1 := by
        simp [excessBits, hn]
      rw [he, pow_succ', ← Nat.div_div_eq_div_mul]
      apply ih
      rw [pow_succ] at h
      omega

theorem excessBits_le_of_int64 (n : Nat) (h : n ≤ 9223372036854775808) :
    excessBits n n ≤ 11 := by
  by_contra hc
  push_neg at hc
  have hq := excessBits_quot n n (by omega)
  have hle := Nat.div_mul_le_self n (2 ^ excessBits n n)
  have hpow : 2 ^ 12 ≤ 2 ^ excessBits n n := Nat.pow_le_pow_right (by norm_num) hc
  have : 4503599627370496 * 2 ^ 12 ≤ n / 2 ^ excessBits n n * 2 ^ excessBits n n :=
    Nat.mul_le_mul hq hpow
  omega

/-- The conversion of an `int64` is a binary64 value. -/
theorem float64OfInt64_valid (t : Int) (h : IsInt64 t) : (float64OfInt64 t).Valid := by
  have hn : t.natAbs ≤ 9223372036854775808 := by
    unfold IsInt64 at h
    omega
  have he := excessBits_le_of_int64 t.natAbs hn
  have hq := excessBits_lt t.natAbs t.natAbs (by
    have h1 : t.natAbs < 2 ^ t.natAbs := Nat.lt_two_pow _
    have h2 : 0 < 2 ^ t.natAbs := Nat.pos_pow_of_pos _ (by norm_num)
    nlinarith)
  have hm : (roundNat53 t.natAbs).1 < 9007199254740992 ∧
      (roundNat53 t.natAbs).2 ≤ excessBits t.natAbs t.natAbs + 1 := by
    unfold roundNat53 normalize53
    simp only
    split_ifs <;> simp <;> omega
  unfold float64OfInt64 Float64.Valid
  simp only
  split_ifs <;> simp only <;> omega

/-! ## The pass, branch by branch -/

theorem not_gt_of_le (x y : Float64) (h : x.toRat ≤ y.toRat) : Float64.gt x y = false := by
  rw [Bool.eq_false_iff]
  intro hgt
  exact absurd ((Float64.gt_iff x y).mp hgt) (not_lt.mpr h)

theorem addInt32_two (x : Int) (h : IsInt32 x) (hov : x + 2 ≤ 2147483647) :
    addInt32 x 2 = x + 2 := by
  unfold IsInt32 at h
  unfold addInt32 wrapInt32
  omega

theorem addInt32_two_overflow (x : Int) (h : IsInt32 x) (hov : 2147483647 < x + 2) :
    addInt32 x 2 = x + 2 - 4294967296 := by
  unfold IsInt32 at h
  unfold addInt32 wrapInt32
  omega

/-- The pass when policy, target and metric load and the threshold is not
breached. -/
theorem Reconcile_calm (r : HpaTunerReconciler) (rt : Runtime) (req : Request)
    (tuner : HpaTuner) (hpa : HorizontalPodAutoscaler) (currentMin : Int) (metric : Float64)
    (hT : r.client.GetHpaTuner req.NamespacedName = .ok tuner)
    (hH : getHpa r { Namespace := tuner.Spec.HpaNamespace, Name := tuner.Spec.HpaName } = .ok hpa)
    (hM : hpa.Spec.MinReplicas = some currentMin)
    (hE : getErrorRate rt tuner.Spec.MetricEndpoint = .ok metric)
    (hgt : Float64.gt metric (float64OfInt64 tuner.Spec.MetricThreshold) = false) :
    Reconcile r rt req =
      ⟨.ret { Requeue := false, RequeueAfter := 30 * Second } none,
        [Effect.event "Normal" "Reconciling",
          Effect.statusUpdate (withStatus rt tuner metric currentMin hpa.Spec.MaxReplicas),
          Effect.event "Normal" "ReconciliationComplete"]⟩ := by
  simp [Reconcile, hT, hH, hM, hE, hgt, updateStatus]

/-- The pass when policy, target and metric load, the threshold is breached
and the patch succeeds. -/
theorem Reconcile_breach_patched (r : HpaTunerReconciler) (rt : Runtime) (req : Request)
    (tuner : HpaTuner) (hpa : HorizontalPodAutoscaler) (currentMin : Int) (metric : Float64)
    (hT : r.client.GetHpaTuner req.NamespacedName = .ok tuner)
    (hH : getHpa r { Namespace := tuner.Spec.HpaNamespace, Name := tuner.Spec.HpaName } = .ok hpa)
    (hM : hpa.Spec.MinReplicas = some currentMin)
    (hE : getErrorRate rt tuner.Spec.MetricEndpoint = .ok metric)
    (hgt : Float64.gt metric (float64OfInt64 tuner.Spec.MetricThreshold) = true)
    (hP : r.client.Patch (hpaPatch hpa
      (min (addInt32 currentMin 2) tuner.Spec.HpaMaxCeilingReplicas)
      tuner.Spec.HpaMaxCeilingReplicas) = none) :
    Reconcile r rt req =
      ⟨.ret { Requeue := false, RequeueAfter := 30 * Second } none,
        [Effect.event "Normal" "Reconciling",
          Effect.event "Normal" "ThresholdBreached",
          Effect.patch (hpaPatch hpa
            (min (addInt32 currentMin 2) tuner.Spec.HpaMaxCeilingReplicas)
            tuner.Spec.HpaMaxCeilingReplicas) "hpatuner-controller" true,
          Effect.event "Normal" "HPAUpdated",
          Effect.statusUpdate (withStatus rt tuner metric
            (min (addInt32 currentMin 2) tuner.Spec.HpaMaxCeilingReplicas)
            tuner.Spec.HpaMaxCeilingReplicas),
          Effect.event "Normal" "ReconciliationComplete"]⟩ := by
  simp [Reconcile, hT, hH, hM, hE, hgt, updateStatus, updateHpaReplicas, hP]

/-- The pass when policy, target and metric load, the threshold is breached
and the patch fails. -/
theorem Reconcile_breach_failed (r : HpaTunerReconciler) (rt : Runtime) (req : Request)
    (tuner : HpaTuner) (hpa : HorizontalPodAutoscaler) (currentMin : Int) (metric : Float64)
    (err : Error)
    (hT : r.client.GetHpaTuner req.NamespacedName = .ok tuner)
    (hH : getHpa r { Namespace := tuner.Spec.HpaNamespace, Name := tuner.Spec.HpaName } = .ok hpa)
    (hM : hpa.Spec.MinReplicas = some currentMin)
    (hE : getErrorRate rt tuner.Spec.MetricEndpoint = .ok metric)
    (hgt : Float64.gt metric (float64OfInt64 tuner.Spec.MetricThreshold) = true)
    (hP : r.client.Patch (hpaPatch hpa
      (min (addInt32 currentMin 2) tuner.Spec.HpaMaxCeilingReplicas)
      tuner.Spec.HpaMaxCeilingReplicas) = some err) :
    Reconcile r rt req =
      ⟨if IsConflict err then .ret { Requeue := true, RequeueAfter := 0 } none
        else if IsNotFound err then .ret Result.empty none
        else .ret Result.empty (some err),
        [Effect.event "Normal" "Reconciling",
          Effect.event "Normal" "ThresholdBreached",
          Effect.patch (hpaPatch hpa
            (min (addInt32 currentMin 2) tuner.Spec.HpaMaxCeilingReplicas)
            tuner.Spec.HpaMaxCeilingReplicas) "hpatuner-controller" true] ++
          (if IsConflict err then [] else if IsNotFound err then []
            else [Effect.event "Warning" "UpdateFailed"])⟩ := by
  simp only [Reconcile, hT, hH, hM, hE, hgt, updateHpaReplicas, hP, if_true]
  split_ifs <;> simp

/-- Where a patch of a pass comes from: policy, target and metric loaded, the
target has a minimum, the threshold is breached, and the patch carries the
bounds computed from them. -/
theorem patch_origin (r : HpaTunerReconciler) (rt : Runtime) (req : Request)
    (p : HorizontalPodAutoscaler) (hp : p ∈ patchesOf (Reconcile r rt req).trace) :
    ∃ tuner hpa currentMin metric,
      r.client.GetHpaTuner req.NamespacedName = .ok tuner ∧
      getHpa r { Namespace := tuner.Spec.HpaNamespace, Name := tuner.Spec.HpaName } = .ok hpa ∧
      hpa.Spec.MinReplicas = some currentMin ∧
      getErrorRate rt tuner.Spec.MetricEndpoint = .ok metric ∧
      Float64.gt metric (float64OfInt64 tuner.Spec.MetricThreshold) = true ∧
      p = hpaPatch hpa (min (addInt32 currentMin 2) tuner.Spec.HpaMaxCeilingReplicas)
        tuner.Spec.HpaMaxCeilingReplicas := by
  cases hT : r.client.GetHpaTuner req.NamespacedName with
  | error e =>
    simp only [Reconcile, hT] at hp
    split_ifs at hp <;> simp [patchesOf] at hp
  | ok tuner =>
    cases hH : getHpa r { Namespace := tuner.Spec.HpaNamespace, Name := tuner.Spec.HpaName } with
    | error e =>
      simp only [Reconcile, hT, hH] at hp
      split_ifs at hp <;> simp [patchesOf] at hp
    | ok hpa =>
      cases hE : getErrorRate rt tuner.Spec.MetricEndpoint with
      | error e =>
        simp [Reconcile, hT, hH, hE, patchesOf] at hp
      | ok metric =>
        cases hM : hpa.Spec.MinReplicas with
        | none =>
          simp only [Reconcile, hT, hH, hE, hM] at hp
          split_ifs at hp <;> simp [patchesOf] at hp
        | some currentMin =>
          cases hgt : Float64.gt metric (float64OfInt64 tuner.Spec.MetricThreshold) with
          | false =>
            rw [Reconcile_calm r rt req tuner hpa currentMin metric hT hH hM hE hgt] at hp
            simp [patchesOf] at hp
          | true =>
            refine ⟨tuner, hpa, currentMin, metric, rfl, hH, hM, hE, hgt, ?_⟩
            cases hP : r.client.Patch (hpaPatch hpa
                (min (addInt32 currentMin 2) tuner.Spec.HpaMaxCeilingReplicas)
                tuner.Spec.HpaMaxCeilingReplicas) with
            | none =>
              rw [Reconcile_breach_patched r rt req tuner hpa currentMin metric
                hT hH hM hE hgt hP] at hp
              simpa [patchesOf] using hp
            | some err =>
              rw [Reconcile_breach_failed r rt req tuner hpa currentMin metric err
                hT hH hM hE hgt hP] at hp
              split_ifs at hp <;> simpa [patchesOf] using hp

/-- A breach with everything loaded issues exactly one patch. -/
theorem patchesOf_breach (r : HpaTunerReconciler) (rt : Runtime) (req : Request)
    (tuner : HpaTuner) (hpa : HorizontalPodAutoscaler) (currentMin : Int) (metric : Float64)
    (hT : r.client.GetHpaTuner req.NamespacedName = .ok tuner)
    (hH : getHpa r { Namespace := tuner.Spec.HpaNamespace, Name := tuner.Spec.HpaName } = .ok hpa)
    (hM : hpa.Spec.MinReplicas = some currentMin)
    (hE : getErrorRate rt tuner.Spec.MetricEndpoint = .ok metric)
    (hgt : Float64.gt metric (float64OfInt64 tuner.Spec.MetricThreshold) = true) :
    patchesOf (Reconcile r rt req).trace =
      [hpaPatch hpa (min (addInt32 currentMin 2) tuner.Spec.HpaMaxCeilingReplicas)
        tuner.Spec.HpaMaxCeilingReplicas] := by
  cases hP : r.client.Patch (hpaPatch hpa
      (min (addInt32 currentMin 2) tuner.Spec.HpaMaxCeilingReplicas)
      tuner.Spec.HpaMaxCeilingReplicas) with
  | none =>
    rw [Reconcile_breach_patched r rt req tuner hpa currentMin metric hT hH hM hE hgt hP]
    simp [patchesOf]
  | some err =>
    rw [Reconcile_breach_failed r rt req tuner hpa currentMin metric err hT hH hM hE hgt hP]
    split_ifs <;> simp [patchesOf]

/-- A trace without a patch leaves the target of any store as it is. -/
theorem commit_hpa_of_no_patch (es : List Effect) (h : patchesOf es = []) (c : Cluster) :
    (c.commit es).hpa = c.hpa := by
  induction es generalizing c with
  | nil => rfl
  | cons e es ih =>
    cases e with
    | event a b => simpa [Cluster.commit] using ih (by simpa [patchesOf] using h) c
    | patch obj a b => simp [patchesOf] at h
    | statusUpdate obj =>
      simp only [Cluster.commit]
      rw [ih (by simpa [patchesOf] using h)]

/-! ## C1: the bounds of a breach -/

/-- C1, as stated, fails on two inputs.  With current min `2147483647` and
ceiling `2147483647` (so current min ≤ ceiling) and metric `7` above threshold
`5`, the sum `currentMin + 2` wraps and the patch carries min `-2147483647`,
not `min (2147483647 + 2) 2147483647`.  With threshold `9007199254740995` and
metric `9007199254740996`, the metric is above the threshold, but the threshold
converts to the float64 `9007199254740996`, the comparison fails and no patch
is issued. -/
theorem C1_counterexample :
    (IsInt32 2147483647 ∧ (2147483647 : Int) ≤ 2147483647 ∧
      ((5 : Int) : ℚ) < (Float64.mk 7 0).toRat ∧
      patchesOf (Reconcile
        (demoReconciler (.ok (demoTuner 5 2147483647))
          (.ok (demoHpa (some 2147483647) 2147483647)) none none)
        (demoRuntime (.ok (Float64.mk 7 0)) "7.00") demoRequest).trace =
        [hpaPatch (demoHpa (some 2147483647) 2147483647) (-2147483647) 2147483647] ∧
      min ((2147483647 : Int) + 2) 2147483647 ≠ -2147483647) ∧
    ((Float64.mk 2251799813685249 2).Valid ∧
      ((9007199254740995 : Int) : ℚ) < (Float64.mk 2251799813685249 2).toRat ∧
      patchesOf (Reconcile
        (demoReconciler (.ok (demoTuner 9007199254740995 10)) (.ok (demoHpa (some 2) 10))
          none none)
        (demoRuntime (.ok (Float64.mk 2251799813685249 2)) "9007199254740996.00")
        demoRequest).trace = []) := by
  refine ⟨⟨by decide, by decide, ?_, by decide, by decide⟩, by decide, ?_, by decide⟩
  · norm_num [Float64.toRat]
  · norm_num [Float64.toRat]

/-- C1 (amended): in a pass where the policy and the target load, the target
has a current min with `currentMin + 2` inside the int32 range, and the fetched
metric is greater than `float64(threshold)`, exactly one patch is issued; it
carries max = ceiling and min = `min (currentMin + 2) ceiling`; when that patch
succeeds exactly one status write follows and it records the same min and
max. -/
theorem C1_breach_bounds (r : HpaTunerReconciler) (rt : Runtime) (req : Request)
    (tuner : HpaTuner) (hpa : HorizontalPodAutoscaler) (currentMin : Int) (metric : Float64)
    (hT : r.client.GetHpaTuner req.NamespacedName = .ok tuner)
    (hH : getHpa r { Namespace := tuner.Spec.HpaNamespace, Name := tuner.Spec.HpaName } = .ok hpa)
    (hM : hpa.Spec.MinReplicas = some currentMin)
    (hE : getErrorRate rt tuner.Spec.MetricEndpoint = .ok metric)
    (hbreach : (float64OfInt64 tuner.Spec.MetricThreshold).toRat < metric.toRat)
    (h32 : IsInt32 currentMin) (hov : currentMin + 2 ≤ 2147483647) :
    ∃ p, patchesOf (Reconcile r rt req).trace = [p] ∧
      p.Namespace = hpa.Namespace ∧ p.Name = hpa.Name ∧
      p.Spec.MaxReplicas = tuner.Spec.HpaMaxCeilingReplicas ∧
      p.Spec.MinReplicas = some (min (currentMin + 2) tuner.Spec.HpaMaxCeilingReplicas) ∧
      (r.client.Patch p = none →
        ∃ st, statusWritesOf (Reconcile r rt req).trace = [st] ∧
          st.Status.LastObservedMin = min (currentMin + 2) tuner.Spec.HpaMaxCeilingReplicas ∧
          st.Status.LastObservedMax = tuner.Spec.HpaMaxCeilingReplicas) := by
  have hgt := (Float64.gt_iff _ _).mpr hbreach
  have hadd := addInt32_two currentMin h32 hov
  refine ⟨hpaPatch hpa (min (currentMin + 2) tuner.Spec.HpaMaxCeilingReplicas)
    tuner.Spec.HpaMaxCeilingReplicas, ?_, rfl, rfl, rfl, rfl, ?_⟩
  · rw [patchesOf_breach r rt req tuner hpa currentMin metric hT hH hM hE hgt, hadd]
  · intro hP
    rw [← hadd] at hP
    rw [Reconcile_breach_patched r rt req tuner hpa currentMin metric hT hH hM hE hgt hP, hadd]
    refine ⟨withStatus rt tuner metric (min (currentMin + 2) tuner.Spec.HpaMaxCeilingReplicas)
      tuner.Spec.HpaMaxCeilingReplicas, ?_, rfl, rfl⟩
    simp [statusWritesOf]

/-- Scenario A: threshold 5, current min 2, max 10, ceiling 10, metric 7: the
patch succeeds, and the patch and the status write carry min 4 and max 10. -/
theorem C1_breach_bounds_witness :
    ∃ p st,
      patchesOf (Reconcile
        (demoReconciler (.ok (demoTuner 5 10)) (.ok (demoHpa (some 2) 10)) none none)
        (demoRuntime (.ok (Float64.mk 7 0)) "7.00") demoRequest).trace = [p] ∧
      p.Spec.MinReplicas = some 4 ∧ p.Spec.MaxReplicas = 10 ∧
      statusWritesOf (Reconcile
        (demoReconciler (.ok (demoTuner 5 10)) (.ok (demoHpa (some 2) 10)) none none)
        (demoRuntime (.ok (Float64.mk 7 0)) "7.00") demoRequest).trace = [st] ∧
      st.Status.LastObservedMin = 4 ∧ st.Status.LastObservedMax = 10 := by
  obtain ⟨p, hp, -, -, hmax, hmin, hst⟩ := C1_breach_bounds
    (demoReconciler (.ok (demoTuner 5 10)) (.ok (demoHpa (some 2) 10)) none none)
    (demoRuntime (.ok (Float64.mk 7 0)) "7.00") demoRequest
    (demoTuner 5 10) (demoHpa (some 2) 10) 2 (Float64.mk 7 0)
    rfl rfl rfl rfl
    (by rw [float64OfInt64_exact _ (by decide)]; norm_num [Float64.toRat, demoTuner])
    (by decide) (by decide)
  obtain ⟨st, hw, hsmin, hsmax⟩ := hst rfl
  exact ⟨p, st, hp, hmin, hmax, hw, hsmin, hsmax⟩

/-! ## C2: no breach, no patch -/

/-- C2: in a pass where the policy and the target load and the fetched metric
(a binary64 value) is at most the threshold, equality included, no patch is
issued, the target of any store is left as it is, and the one status write
carries the current min and the current max of the target. -/
theorem C2_no_breach_no_patch (r : HpaTunerReconciler) (rt : Runtime) (req : Request)
    (tuner : HpaTuner) (hpa : HorizontalPodAutoscaler) (currentMin : Int) (metric : Float64)
    (hT : r.client.GetHpaTuner req.NamespacedName = .ok tuner)
    (hH : getHpa r { Namespace := tuner.Spec.HpaNamespace, Name := tuner.Spec.HpaName } = .ok hpa)
    (hM : hpa.Spec.MinReplicas = some currentMin)
    (hE : getErrorRate rt tuner.Spec.MetricEndpoint = .ok metric)
    (hv : metric.Valid)
    (hle : metric.toRat ≤ (tuner.Spec.MetricThreshold : ℚ)) :
    patchesOf (Reconcile r rt req).trace = [] ∧
      (∀ c : Cluster, (c.commit (Reconcile r rt req).trace).hpa = c.hpa) ∧
      ∃ st, statusWritesOf (Reconcile r rt req).trace = [st] ∧
        st.Status.LastObservedMin = currentMin ∧
        st.Status.LastObservedMax = hpa.Spec.MaxReplicas := by
  have hgt := not_gt_of_le _ _ (le_float64OfInt64 metric hv _ hle)
  have hR := Reconcile_calm r rt req tuner hpa currentMin metric hT hH hM hE hgt
  have hnp : patchesOf (Reconcile r rt req).trace = [] := by
    rw [hR]
    simp [patchesOf]
  refine ⟨hnp, fun c => commit_hpa_of_no_patch _ hnp c, ?_⟩
  rw [hR]
  refine ⟨withStatus rt tuner metric currentMin hpa.Spec.MaxReplicas, ?_, rfl, rfl⟩
  simp [statusWritesOf]

/-- Scenario B: threshold 5, metric 3, current min 2, max 10: no patch, and
the status write carries min 2 and max 10. -/
theorem C2_no_breach_no_patch_witness :
    patchesOf (Reconcile
        (demoReconciler (.ok (demoTuner 5 10)) (.ok (demoHpa (some 2) 10)) none none)
        (demoRuntime (.ok (Float64.mk 3 0)) "3.00") demoRequest).trace = [] ∧
      (∀ c : Cluster, (c.commit (Reconcile
        (demoReconciler (.ok (demoTuner 5 10)) (.ok (demoHpa (some 2) 10)) none none)
        (demoRuntime (.ok (Float64.mk 3 0)) "3.00") demoRequest).trace).hpa = c.hpa) ∧
      ∃ st, statusWritesOf (Reconcile
          (demoReconciler (.ok (demoTuner 5 10)) (.ok (demoHpa (some 2) 10)) none none)
          (demoRuntime (.ok (Float64.mk 3 0)) "3.00") demoRequest).trace = [st] ∧
        st.Status.LastObservedMin = 2 ∧
        st.Status.LastObservedMax = 10 :=
  C2_no_breach_no_patch
    (demoReconciler (.ok (demoTuner 5 10)) (.ok (demoHpa (some 2) 10)) none none)
    (demoRuntime (.ok (Float64.mk 3 0)) "3.00") demoRequest
    (demoTuner 5 10) (demoHpa (some 2) 10) 2 (Float64.mk 3 0)
    rfl rfl rfl rfl (by decide) (by norm_num [Float64.toRat, demoTuner])

/-! ## C3: the patched bounds against the current bounds -/

/-- C3, as stated, fails: with current bounds (2, 10), ceiling 5 and metric 7
above threshold 5, the patch carries max 5, below the current max 10. -/
theorem C3_counterexample :
    ∃ p, patchesOf (Reconcile
        (demoReconciler (.ok (demoTuner 5 5)) (.ok (demoHpa (some 2) 10)) none none)
        (demoRuntime (.ok (Float64.mk 7 0)) "7.00") demoRequest).trace = [p] ∧
      p.Spec.MaxReplicas = 5 ∧ p.Spec.MaxReplicas < (demoHpa (some 2) 10).Spec.MaxReplicas :=
  ⟨hpaPatch (demoHpa (some 2) 10) 4 5, by decide, by decide, by decide⟩

/-- C3 (amended): for a patch of a pass, the patched max is at least the current
max exactly when the current max is at most the ceiling, and the patched min is
at least the current min exactly when the current min is at most the ceiling
and `currentMin + 2` stays inside the int32 range. -/
theorem C3_not_lower_iff (r : HpaTunerReconciler) (rt : Runtime) (req : Request)
    (tuner : HpaTuner) (hpa : HorizontalPodAutoscaler) (currentMin : Int)
    (p : HorizontalPodAutoscaler)
    (hT : r.client.GetHpaTuner req.NamespacedName = .ok tuner)
    (hH : getHpa r { Namespace := tuner.Spec.HpaNamespace, Name := tuner.Spec.HpaName } = .ok hpa)
    (hM : hpa.Spec.MinReplicas = some currentMin)
    (h32 : IsInt32 currentMin)
    (hp : p ∈ patchesOf (Reconcile r rt req).trace) :
    (hpa.Spec.MaxReplicas ≤ p.Spec.MaxReplicas ↔
        hpa.Spec.MaxReplicas ≤ tuner.Spec.HpaMaxCeilingReplicas) ∧
      ∃ desiredMin, p.Spec.MinReplicas = some desiredMin ∧
        (currentMin ≤ desiredMin ↔
          currentMin ≤ tuner.Spec.HpaMaxCeilingReplicas ∧ currentMin + 2 ≤ 2147483647) := by
  obtain ⟨tuner1, hpa1, cur1, metric, hT1, hH1, hM1, -, -, hp1⟩ := patch_origin r rt req p hp
  rw [hT] at hT1
  cases hT1
  rw [hH] at hH1
  cases hH1
  rw [hM] at hM1
  cases hM1
  subst hp1
  refine ⟨Iff.rfl, _, rfl, ?_⟩
  rcases le_or_lt (currentMin + 2) 2147483647 with hov | hov
  · rw [addInt32_two currentMin h32 hov]
    constructor
    · intro h
      exact ⟨le_trans h (min_le_right _ _), hov⟩
    · rintro ⟨h, -⟩
      exact le_min (by omega) h
  · rw [addInt32_two_overflow currentMin h32 hov]
    unfold IsInt32 at h32
    constructor
    · intro h
      have := le_trans h (min_le_left _ _)
      omega
    · rintro ⟨-, h⟩
      omega

/-- Current bounds (2, 10), ceiling 10, metric 7 above threshold 5: the patch
(4, 10) is not below the current bounds. -/
theorem C3_not_lower_iff_witness :
    ((10 : Int) ≤ (hpaPatch (demoHpa (some 2) 10) 4 10).Spec.MaxReplicas ↔ (10 : Int) ≤ 10) ∧
      ∃ desiredMin, (hpaPatch (demoHpa (some 2) 10) 4 10).Spec.MinReplicas = some desiredMin ∧
        ((2 : Int) ≤ desiredMin ↔ (2 : Int) ≤ 10 ∧ (2 : Int) + 2 ≤ 2147483647) :=
  C3_not_lower_iff
    (demoReconciler (.ok (demoTuner 5 10)) (.ok (demoHpa (some 2) 10)) none none)
    (demoRuntime (.ok (Float64.mk 7 0)) "7.00") demoRequest
    (demoTuner 5 10) (demoHpa (some 2) 10) 2 (hpaPatch (demoHpa (some 2) 10) 4 10)
    rfl rfl rfl (by decide) (by decide)

/-! ## C4: the patched bounds against the ceiling -/

/-- C4: every patch of a pass carries a max that is at most the ceiling of the
loaded policy and a min that is at most that max, whatever the current bounds
and the ceiling are. -/
theorem C4_patch_within_ceiling (r : HpaTunerReconciler) (rt : Runtime) (req : Request)
    (p : HorizontalPodAutoscaler) (hp : p ∈ patchesOf (Reconcile r rt req).trace) :
    ∃ tuner desiredMin,
      r.client.GetHpaTuner req.NamespacedName = .ok tuner ∧
      p.Spec.MinReplicas = some desiredMin ∧
      p.Spec.MaxReplicas ≤ tuner.Spec.HpaMaxCeilingReplicas ∧
      desiredMin ≤ p.Spec.MaxReplicas := by
  obtain ⟨tuner, hpa, cur, metric, hT, -, -, -, -, hp1⟩ := patch_origin r rt req p hp
  subst hp1
  exact ⟨tuner, _, hT, rfl, le_refl _, min_le_right _ _⟩

/-- Current min 2147483647, ceiling 3 below it: the patch carries
min -2147483647 ≤ max 3 ≤ ceiling 3. -/
theorem C4_patch_within_ceiling_witness :
    ∃ tuner desiredMin,
      (demoReconciler (.ok (demoTuner 5 3)) (.ok (demoHpa (some 2147483647) 2147483647))
        none none).client.GetHpaTuner demoRequest.NamespacedName = .ok tuner ∧
      (hpaPatch (demoHpa (some 2147483647) 2147483647) (-2147483647) 3).Spec.MinReplicas
        = some desiredMin ∧
      (hpaPatch (demoHpa (some 2147483647) 2147483647) (-2147483647) 3).Spec.MaxReplicas
        ≤ tuner.Spec.HpaMaxCeilingReplicas ∧
      desiredMin ≤
        (hpaPatch (demoHpa (some 2147483647) 2147483647) (-2147483647) 3).Spec.MaxReplicas :=
  C4_patch_within_ceiling
    (demoReconciler (.ok (demoTuner 5 3)) (.ok (demoHpa (some 2147483647) 2147483647))
      none none)
    (demoRuntime (.ok (Float64.mk 7 0)) "7.00") demoRequest
    (hpaPatch (demoHpa (some 2147483647) 2147483647) (-2147483647) 3) (by decide)

/-! ## C5: load errors -/

/-- With the event recorder set, a pass on a struct literal is `Reconcile`. -/
theorem ReconcileLiteral_recorder (client : Client) (rt : Runtime) (req : Request) :
    ReconcileLiteral { client := client, eventRecorderSet := true } rt req
      = Reconcile { client := client } rt req := by
  unfold ReconcileLiteral
  cases hT : client.GetHpaTuner req.NamespacedName with
  | error err => simp [Reconcile, hT]
  | ok tuner => simp

/-- With the event recorder unset, a pass whose policy loads panics before it
makes any call. -/
theorem ReconcileLiteral_no_recorder (client : Client) (rt : Runtime) (req : Request)
    (tuner : HpaTuner) (hT : client.GetHpaTuner req.NamespacedName = .ok tuner) :
    ReconcileLiteral { client := client, eventRecorderSet := false } rt req
      = ⟨.nilDeref, []⟩ := by
  simp [ReconcileLiteral, hT]

/-- The two load steps of a reconciler built by `NewHpaTunerReconciler`: when
loading the policy fails, or the policy loads and loading the target fails, a
not-found error ends the pass with the empty result (no requeue, no delay) and
no error, any other error ends it with that error, and in every one of these
cases the pass issues no patch and no status write. -/
theorem load_errors_terminal (r : HpaTunerReconciler) (rt : Runtime) (req : Request) :
    (∀ err, r.client.GetHpaTuner req.NamespacedName = .error err →
      (IsNotFound err = true →
        returned (Reconcile r rt req) = some ({ Requeue := false, RequeueAfter := 0 }, none)) ∧
      (IsNotFound err = false →
        returned (Reconcile r rt req) = some ({ Requeue := false, RequeueAfter := 0 }, some err)) ∧
      patchesOf (Reconcile r rt req).trace = [] ∧
      statusWritesOf (Reconcile r rt req).trace = []) ∧
    (∀ tuner err, r.client.GetHpaTuner req.NamespacedName = .ok tuner →
      getHpa r { Namespace := tuner.Spec.HpaNamespace, Name := tuner.Spec.HpaName } = .error err →
      (IsNotFound err = true →
        returned (Reconcile r rt req) = some ({ Requeue := false, RequeueAfter := 0 }, none)) ∧
      (IsNotFound err = false →
        returned (Reconcile r rt req) = some ({ Requeue := false, RequeueAfter := 0 }, some err)) ∧
      patchesOf (Reconcile r rt req).trace = [] ∧
      statusWritesOf (Reconcile r rt req).trace = []) := by
  constructor
  · intro err hT
    cases hnf : IsNotFound err <;>
      simp [Reconcile, hT, hnf, returned, Result.empty, patchesOf, statusWritesOf]
  · intro tuner err hT hH
    cases hnf : IsNotFound err <;>
      simp [Reconcile, hT, hH, hnf, returned, Result.empty, patchesOf, statusWritesOf]

/-- A missing policy, and a policy whose target the store answers not-found
for, both end the pass with the empty result and no error. -/
theorem load_errors_terminal_witness :
    returned (Reconcile (demoReconciler (.error notFound) (.error notFound) none none)
        (demoRuntime (.ok (Float64.mk 7 0)) "7.00") demoRequest)
        = some ({ Requeue := false, RequeueAfter := 0 }, none) ∧
      returned (Reconcile (demoReconciler (.ok (demoTuner 5 10)) (.error notFound) none none)
        (demoRuntime (.ok (Float64.mk 7 0)) "7.00") demoRequest)
        = some ({ Requeue := false, RequeueAfter := 0 }, none) :=
  ⟨((load_errors_terminal (demoReconciler (.error notFound) (.error notFound) none none)
      (demoRuntime (.ok (Float64.mk 7 0)) "7.00") demoRequest).1 notFound rfl).1 rfl,
    ((load_errors_terminal (demoReconciler (.ok (demoTuner 5 10)) (.error notFound) none none)
      (demoRuntime (.ok (Float64.mk 7 0)) "7.00") demoRequest).2
      (demoTuner 5 10) notFound rfl rfl).1 rfl⟩

/-- C5, on the input of the test it cites (the policy `default/test-resource`
exists with an empty spec, the store holds no target, the reconciler is the
struct literal with `client` and `Scheme` only): the pass does not reconcile
without error.  With the event recorder unset it panics right after the policy
has loaded, before the target is looked up and without returning a result.
With the event recorder set it looks the target up under the empty key, the
client answers with an error that is not not-found, and the pass returns that
error. -/
theorem C5_test_input_fails (rt : Runtime) :
    testClient.GetHpaTuner testRequest.NamespacedName = .ok testTuner ∧
      ReconcileLiteral { client := testClient, eventRecorderSet := false } rt testRequest
        = ⟨.nilDeref, []⟩ ∧
      returned (ReconcileLiteral { client := testClient, eventRecorderSet := false } rt
        testRequest) = none ∧
      IsNotFound emptyNameError = false ∧
      returned (ReconcileLiteral { client := testClient, eventRecorderSet := true } rt
        testRequest) = some ({ Requeue := false, RequeueAfter := 0 }, some emptyNameError) := by
  have hT : testClient.GetHpaTuner testRequest.NamespacedName = .ok testTuner := by
    simp [testClient, testRequest]
  have hH : getHpa { client := testClient }
      { Namespace := testTuner.Spec.HpaNamespace, Name := testTuner.Spec.HpaName }
      = .error emptyNameError := by
    simp [getHpa, testClient, testTuner]
  have hpanic := ReconcileLiteral_no_recorder testClient rt testRequest testTuner hT
  refine ⟨hT, hpanic, ?_, by decide, ?_⟩
  · rw [hpanic]
    rfl
  · rw [ReconcileLiteral_recorder]
    exact ((load_errors_terminal { client := testClient } rt testRequest).2
      testTuner emptyNameError hT hH).2.1 (by decide)

/-! ## C6: a failed patch -/

/-- C6: in a pass whose patch fails, a Conflict error gives the result
`Requeue = true` with no delay and no error, a NotFound error gives the empty
result and no error, any other error is returned with the empty result, and
in all three cases no status write is made. -/
theorem C6_patch_failure (r : HpaTunerReconciler) (rt : Runtime) (req : Request)
    (tuner : HpaTuner) (hpa : HorizontalPodAutoscaler) (currentMin : Int) (metric : Float64)
    (err : Error)
    (hT : r.client.GetHpaTuner req.NamespacedName = .ok tuner)
    (hH : getHpa r { Namespace := tuner.Spec.HpaNamespace, Name := tuner.Spec.HpaName } = .ok hpa)
    (hM : hpa.Spec.MinReplicas = some currentMin)
    (hE : getErrorRate rt tuner.Spec.MetricEndpoint = .ok metric)
    (hbreach : (float64OfInt64 tuner.Spec.MetricThreshold).toRat < metric.toRat)
    (hP : r.client.Patch (hpaPatch hpa
      (min (addInt32 currentMin 2) tuner.Spec.HpaMaxCeilingReplicas)
      tuner.Spec.HpaMaxCeilingReplicas) = some err) :
    (IsConflict err = true →
      returned (Reconcile r rt req) = some ({ Requeue := true, RequeueAfter := 0 }, none)) ∧
    (IsNotFound err = true →
      returned (Reconcile r rt req) = some ({ Requeue := false, RequeueAfter := 0 }, none)) ∧
    (IsConflict err = false → IsNotFound err = false →
      returned (Reconcile r rt req) = some ({ Requeue := false, RequeueAfter := 0 }, some err)) ∧
    statusWritesOf (Reconcile r rt req).trace = [] := by
  have hgt := (Float64.gt_iff _ _).mpr hbreach
  rw [Reconcile_breach_failed r rt req tuner hpa currentMin metric err hT hH hM hE hgt hP]
  refine ⟨?_, ?_, ?_, ?_⟩
  · intro hc
    simp [hc, returned]
  · intro hn
    have hc : IsConflict err = false := by
      unfold IsNotFound at hn
      unfold IsConflict
      cases hr : err.reason <;> simp_all
    simp [hc, hn, returned, Result.empty]
  · intro hc hn
    simp [hc, hn, returned, Result.empty]
  · split_ifs <;> simp [statusWritesOf]

/-- Scenario D: the patch answers Conflict: the pass asks for an immediate
requeue, returns no error and writes no status. -/
theorem C6_patch_failure_witness :
    returned (Reconcile
        (demoReconciler (.ok (demoTuner 5 10)) (.ok (demoHpa (some 2) 10))
          (some conflictError) none)
        (demoRuntime (.ok (Float64.mk 7 0)) "7.00") demoRequest)
        = some ({ Requeue := true, RequeueAfter := 0 }, none) ∧
      statusWritesOf (Reconcile
        (demoReconciler (.ok (demoTuner 5 10)) (.ok (demoHpa (some 2) 10))
          (some conflictError) none)
        (demoRuntime (.ok (Float64.mk 7 0)) "7.00") demoRequest).trace = [] := by
  have h := C6_patch_failure
    (demoReconciler (.ok (demoTuner 5 10)) (.ok (demoHpa (some 2) 10))
      (some conflictError) none)
    (demoRuntime (.ok (Float64.mk 7 0)) "7.00") demoRequest
    (demoTuner 5 10) (demoHpa (some 2) 10) 2 (Float64.mk 7 0) conflictError
    rfl rfl rfl rfl
    (by rw [float64OfInt64_exact _ (by decide)]; norm_num [Float64.toRat, demoTuner])
    rfl
  exact ⟨h.1 rfl, h.2.2.2⟩

/-! ## C7: a failed metric fetch -/

/-- C7: in a pass where the policy and the target load and `getErrorRate`
fails (building the request, sending it or decoding the payload failed, and
that error is the one `getErrorRate` returns), the pass returns that error with
the empty result, and issues no patch and no status write. -/
theorem C7_metric_failure (r : HpaTunerReconciler) (rt : Runtime) (req : Request)
    (tuner : HpaTuner) (hpa : HorizontalPodAutoscaler) (err : Error)
    (hT : r.client.GetHpaTuner req.NamespacedName = .ok tuner)
    (hH : getHpa r { Namespace := tuner.Spec.HpaNamespace, Name := tuner.Spec.HpaName } = .ok hpa)
    (hE : getErrorRate rt tuner.Spec.MetricEndpoint = .error err) :
    (rt.NewRequest "GET" tuner.Spec.MetricEndpoint = .error err ∨
      ∃ httpReq, rt.NewRequest "GET" tuner.Spec.MetricEndpoint = .ok httpReq ∧
        (rt.Do httpReq = .error err ∨
          ∃ body, rt.Do httpReq = .ok body ∧ rt.Decode body = .error err)) ∧
      returned (Reconcile r rt req) = some ({ Requeue := false, RequeueAfter := 0 }, some err) ∧
      patchesOf (Reconcile r rt req).trace = [] ∧
      statusWritesOf (Reconcile r rt req).trace = [] := by
  refine ⟨?_, ?_⟩
  · unfold getErrorRate at hE
    cases hN : rt.NewRequest "GET" tuner.Spec.MetricEndpoint with
    | error e =>
      simp only [hN, Except.error.injEq] at hE
      rw [hE]
      exact Or.inl rfl
    | ok httpReq =>
      simp only [hN] at hE
      refine Or.inr ⟨httpReq, rfl, ?_⟩
      cases hD : rt.Do httpReq with
      | error e =>
        simp only [hD, Except.error.injEq] at hE
        rw [hE]
        exact Or.inl rfl
      | ok body =>
        simp only [hD] at hE
        refine Or.inr ⟨body, rfl, ?_⟩
        cases hJ : rt.Decode body with
        | error e =>
          simp only [hJ, Except.error.injEq] at hE
          rw [hE]
        | ok respData => simp [hJ] at hE
  · simp [Reconcile, hT, hH, hE, returned, Result.empty, patchesOf, statusWritesOf]

/-- The metric endpoint refuses the connection: the pass returns that error
and mutates nothing. -/
theorem C7_metric_failure_witness :
    returned (Reconcile
        (demoReconciler (.ok (demoTuner 5 10)) (.ok (demoHpa (some 2) 10)) none none)
        (demoRuntime (.error otherError) "") demoRequest)
        = some ({ Requeue := false, RequeueAfter := 0 }, some otherError) ∧
      patchesOf (Reconcile
        (demoReconciler (.ok (demoTuner 5 10)) (.ok (demoHpa (some 2) 10)) none none)
        (demoRuntime (.error otherError) "") demoRequest).trace = [] ∧
      statusWritesOf (Reconcile
        (demoReconciler (.ok (demoTuner 5 10)) (.ok (demoHpa (some 2) 10)) none none)
        (demoRuntime (.error otherError) "") demoRequest).trace = [] :=
  (C7_metric_failure
    (demoReconciler (.ok (demoTuner 5 10)) (.ok (demoHpa (some 2) 10)) none none)
    (demoRuntime (.error otherError) "") demoRequest
    (demoTuner 5 10) (demoHpa (some 2) 10) otherError rfl rfl rfl).2

/-! ## C8: the status write is best effort -/

/-- C8: in a pass that reaches the status write (policy, target with a min and
metric loaded, and either no breach, or a breach whose patch succeeded), exactly
one status write is made and the pass returns no error with a requeue delay of
30 seconds, whatever the store answers to that status write. -/
theorem C8_status_write_best_effort (r : HpaTunerReconciler) (rt : Runtime) (req : Request)
    (tuner : HpaTuner) (hpa : HorizontalPodAutoscaler) (currentMin : Int) (metric : Float64)
    (statusAnswer : HpaTuner → Option Error)
    (hT : r.client.GetHpaTuner req.NamespacedName = .ok tuner)
    (hH : getHpa r { Namespace := tuner.Spec.HpaNamespace, Name := tuner.Spec.HpaName } = .ok hpa)
    (hM : hpa.Spec.MinReplicas = some currentMin)
    (hE : getErrorRate rt tuner.Spec.MetricEndpoint = .ok metric)
    (hreach : metric.toRat ≤ (float64OfInt64 tuner.Spec.MetricThreshold).toRat ∨
      ((float64OfInt64 tuner.Spec.MetricThreshold).toRat < metric.toRat ∧
        r.client.Patch (hpaPatch hpa
          (min (addInt32 currentMin 2) tuner.Spec.HpaMaxCeilingReplicas)
          tuner.Spec.HpaMaxCeilingReplicas) = none)) :
    (statusWritesOf (Reconcile (withStatusAnswer r statusAnswer) rt req).trace).length = 1 ∧
      returned (Reconcile (withStatusAnswer r statusAnswer) rt req)
        = some ({ Requeue := false, RequeueAfter := 30 * Second }, none) := by
  have hT1 : (withStatusAnswer r statusAnswer).client.GetHpaTuner req.NamespacedName
      = .ok tuner := hT
  have hH1 : getHpa (withStatusAnswer r statusAnswer)
      { Namespace := tuner.Spec.HpaNamespace, Name := tuner.Spec.HpaName } = .ok hpa := hH
  rcases hreach with hle | ⟨hlt, hP⟩
  · rw [Reconcile_calm (withStatusAnswer r statusAnswer) rt req tuner hpa currentMin metric
      hT1 hH1 hM hE (not_gt_of_le _ _ hle)]
    simp [statusWritesOf, returned]
  · have hP1 : (withStatusAnswer r statusAnswer).client.Patch (hpaPatch hpa
        (min (addInt32 currentMin 2) tuner.Spec.HpaMaxCeilingReplicas)
        tuner.Spec.HpaMaxCeilingReplicas) = none := hP
    rw [Reconcile_breach_patched (withStatusAnswer r statusAnswer) rt req tuner hpa currentMin
      metric hT1 hH1 hM hE ((Float64.gt_iff _ _).mpr hlt) hP1]
    simp [statusWritesOf, returned]

/-- Scenario B with a store that rejects the status update: one status write is
attempted and the pass still returns no error and a delay of 30 seconds. -/
theorem C8_status_write_best_effort_witness :
    (statusWritesOf (Reconcile
        (demoReconciler (.ok (demoTuner 5 10)) (.ok (demoHpa (some 2) 10)) none
          (some otherError))
        (demoRuntime (.ok (Float64.mk 3 0)) "3.00") demoRequest).trace).length = 1 ∧
      returned (Reconcile
        (demoReconciler (.ok (demoTuner 5 10)) (.ok (demoHpa (some 2) 10)) none
          (some otherError))
        (demoRuntime (.ok (Float64.mk 3 0)) "3.00") demoRequest)
        = some ({ Requeue := false, RequeueAfter := 30000000000 }, none) :=
  C8_status_write_best_effort
    (demoReconciler (.ok (demoTuner 5 10)) (.ok (demoHpa (some 2) 10)) none none)
    (demoRuntime (.ok (Float64.mk 3 0)) "3.00") demoRequest
    (demoTuner 5 10) (demoHpa (some 2) 10) 2 (Float64.mk 3 0) (fun _ => some otherError)
    rfl rfl rfl rfl
    (Or.inl (by rw [float64OfInt64_exact _ (by decide)]; norm_num [Float64.toRat, demoTuner]))

/-! ## C9: when a patch is issued -/

/-- C9, as stated, fails: with current bounds (10, 10), ceiling 10 and metric 7
above threshold 5 the desired bounds are (10, 10), equal to the current bounds,
and the pass still issues a patch. -/
theorem C9_counterexample :
    ∃ p, patchesOf (Reconcile
        (demoReconciler (.ok (demoTuner 5 10)) (.ok (demoHpa (some 10) 10)) none none)
        (demoRuntime (.ok (Float64.mk 7 0)) "7.00") demoRequest).trace = [p] ∧
      p.Spec.MinReplicas = (demoHpa (some 10) 10).Spec.MinReplicas ∧
      p.Spec.MaxReplicas = (demoHpa (some 10) 10).Spec.MaxReplicas :=
  ⟨hpaPatch (demoHpa (some 10) 10) 10 10, by decide, by decide, by decide⟩

/-- C9 (amended): a pass issues a patch exactly when the policy, the target
(with a min) and the metric load and the metric is greater than
`float64(threshold)`; the desired bounds are not compared with the current
ones. -/
theorem C9_patch_iff_breach (r : HpaTunerReconciler) (rt : Runtime) (req : Request) :
    patchesOf (Reconcile r rt req).trace ≠ [] ↔
      ∃ tuner hpa currentMin metric,
        r.client.GetHpaTuner req.NamespacedName = .ok tuner ∧
        getHpa r { Namespace := tuner.Spec.HpaNamespace, Name := tuner.Spec.HpaName }
          = .ok hpa ∧
        hpa.Spec.MinReplicas = some currentMin ∧
        getErrorRate rt tuner.Spec.MetricEndpoint = .ok metric ∧
        (float64OfInt64 tuner.Spec.MetricThreshold).toRat < metric.toRat := by
  constructor
  · intro hne
    obtain ⟨p, hp⟩ := List.exists_mem_of_ne_nil _ hne
    obtain ⟨tuner, hpa, cur, metric, hT, hH, hM, hE, hgt, -⟩ := patch_origin r rt req p hp
    exact ⟨tuner, hpa, cur, metric, hT, hH, hM, hE, (Float64.gt_iff _ _).mp hgt⟩
  · rintro ⟨tuner, hpa, cur, metric, hT, hH, hM, hE, hlt⟩
    rw [patchesOf_breach r rt req tuner hpa cur metric hT hH hM hE
      ((Float64.gt_iff _ _).mpr hlt)]
    simp

/-! ## C10: consecutive breaches -/

/-- One pass over the store on a breach: the target gets the two computed
bounds, the policy gets the status. -/
theorem pass_breach (c : Cluster) (rt : Runtime) (currentMin : Int) (metric : Float64)
    (hname : c.tuner.Spec.HpaName = c.hpa.Name)
    (hns : c.tuner.Spec.HpaNamespace = c.hpa.Namespace)
    (hM : c.hpa.Spec.MinReplicas = some currentMin)
    (hE : getErrorRate rt c.tuner.Spec.MetricEndpoint = .ok metric)
    (hgt : Float64.gt metric (float64OfInt64 c.tuner.Spec.MetricThreshold) = true) :
    pass rt c =
      { tuner := withStatus rt c.tuner metric
          (min (addInt32 currentMin 2) c.tuner.Spec.HpaMaxCeilingReplicas)
          c.tuner.Spec.HpaMaxCeilingReplicas
        hpa :=
          { c.hpa with
            Spec :=
              { c.hpa.Spec with
                MinReplicas :=
                  some (min (addInt32 currentMin 2) c.tuner.Spec.HpaMaxCeilingReplicas)
                MaxReplicas := c.tuner.Spec.HpaMaxCeilingReplicas } } } := by
  have hT : (HpaTunerReconciler.mk c.client).client.GetHpaTuner
      (Request.mk { Namespace := c.tuner.Namespace, Name := c.tuner.Name }).NamespacedName
      = .ok c.tuner := by
    simp [Cluster.client]
  have hH : getHpa (HpaTunerReconciler.mk c.client)
      { Namespace := c.tuner.Spec.HpaNamespace, Name := c.tuner.Spec.HpaName } = .ok c.hpa := by
    simp [getHpa, Cluster.client, hname, hns]
  unfold pass
  rw [Reconcile_breach_patched (HpaTunerReconciler.mk c.client) rt
    (Request.mk { Namespace := c.tuner.Namespace, Name := c.tuner.Name })
    c.tuner c.hpa currentMin metric hT hH hM hE hgt rfl]
  simp [Cluster.commit, hpaPatch, withStatus]

theorem passes_append (rts : List Runtime) (rt : Runtime) (c : Cluster) :
    passes (rts ++ [rt]) c = pass rt (passes rts c) := by
  induction rts generalizing c with
  | nil => rfl
  | cons a rts ih => simp [passes, ih]

/-- The store after consecutive breaches, in closed form, together with what
the passes leave untouched. -/
theorem passes_breach (rts : List Runtime) :
    ∀ (c : Cluster) (m : Int),
      c.tuner.Spec.HpaName = c.hpa.Name →
      c.tuner.Spec.HpaNamespace = c.hpa.Namespace →
      c.hpa.Spec.MinReplicas = some m →
      IsInt32 m → m ≤ c.tuner.Spec.HpaMaxCeilingReplicas →
      c.tuner.Spec.HpaMaxCeilingReplicas + 2 ≤ 2147483647 →
      (∀ rt ∈ rts, ∃ x, getErrorRate rt c.tuner.Spec.MetricEndpoint = .ok x ∧
        (float64OfInt64 c.tuner.Spec.MetricThreshold).toRat < x.toRat) →
      (passes rts c).hpa.Spec.MinReplicas
          = some (min (m + 2 * (rts.length : Int)) c.tuner.Spec.HpaMaxCeilingReplicas) ∧
        (rts ≠ [] → (passes rts c).hpa.Spec.MaxReplicas = c.tuner.Spec.HpaMaxCeilingReplicas) ∧
        (passes rts c).tuner.Spec = c.tuner.Spec ∧
        (passes rts c).hpa.Name = c.hpa.Name ∧
        (passes rts c).hpa.Namespace = c.hpa.Namespace := by
  induction rts with
  | nil =>
    intro c m _ _ hM _ hle _ _
    refine ⟨?_, fun h => absurd rfl h, rfl, rfl, rfl⟩
    simp [passes, hM, hle]
  | cons rt rts ih =>
    intro c m hname hns hM h32 hle hov hb
    obtain ⟨x, hE, hlt⟩ := hb rt (List.mem_cons_self _ _)
    have hadd := addInt32_two m h32 (by omega)
    have hp := pass_breach c rt m x hname hns hM hE ((Float64.gt_iff _ _).mpr hlt)
    rw [hadd] at hp
    have hspec : (pass rt c).tuner.Spec = c.tuner.Spec := by rw [hp]; rfl
    have hmin : (pass rt c).hpa.Spec.MinReplicas
        = some (min (m + 2) c.tuner.Spec.HpaMaxCeilingReplicas) := by rw [hp]
    have hmax : (pass rt c).hpa.Spec.MaxReplicas = c.tuner.Spec.HpaMaxCeilingReplicas := by
      rw [hp]
    have hn : (pass rt c).hpa.Name = c.hpa.Name := by rw [hp]
    have hs : (pass rt c).hpa.Namespace = c.hpa.Namespace := by rw [hp]
    have h32' : IsInt32 (min (m + 2) c.tuner.Spec.HpaMaxCeilingReplicas) := by
      unfold IsInt32 at h32 ⊢
      constructor
      · exact le_min (by omega) (by omega)
      · exact le_trans (min_le_right _ _) (by omega)
    obtain ⟨i1, i2, i3, i4, i5⟩ := ih (pass rt c)
      (min (m + 2) c.tuner.Spec.HpaMaxCeilingReplicas)
      (by rw [hspec, hn]; exact hname) (by rw [hspec, hs]; exact hns) hmin h32'
      (by rw [hspec]; exact min_le_right _ _) (by rw [hspec]; exact hov)
      (by
        intro rt1 hrt1
        rw [hspec]
        exact hb rt1 (List.mem_cons_of_mem _ hrt1))
    rw [hspec] at i1 i2 i3
    refine ⟨?_, fun _ => ?_, i3, i4.trans hn, i5.trans hs⟩
    · simp only [passes, i1, List.length_cons, Option.some.injEq]
      push_cast
      rcases le_total (m + 2) c.tuner.Spec.HpaMaxCeilingReplicas with h | h
      · rw [min_eq_left h]
        congr 1
        ring
      · rw [min_eq_right h, min_eq_right (by omega), min_eq_right (by omega)]
    · simp only [passes]
      by_cases hnil : rts = []
      · subst hnil
        exact hmax
      · exact i2 hnil

/-- C10: start from a store whose target has min `m ≤ c` for the ceiling `c` of
its policy, with `c + 2` inside the int32 range.  After `k` consecutive passes
that each fetch a metric greater than `float64(threshold)` (the store accepting
every patch), the target has min = `min (m + 2k) c` and, once `k ≥ 1`,
max = `c`.  Hence one more such pass never lowers the min, the min is `c` as
soon as `k ≥ ⌈(c - m) / 2⌉`, and bounds `(c, c)` are left as they are. -/
theorem C10_consecutive_breaches (c : Cluster) (m : Int) (rts : List Runtime)
    (hname : c.tuner.Spec.HpaName = c.hpa.Name)
    (hns : c.tuner.Spec.HpaNamespace = c.hpa.Namespace)
    (hM : c.hpa.Spec.MinReplicas = some m)
    (h32 : IsInt32 m) (hle : m ≤ c.tuner.Spec.HpaMaxCeilingReplicas)
    (hov : c.tuner.Spec.HpaMaxCeilingReplicas + 2 ≤ 2147483647)
    (hb : ∀ rt ∈ rts, ∃ x, getErrorRate rt c.tuner.Spec.MetricEndpoint = .ok x ∧
      (float64OfInt64 c.tuner.Spec.MetricThreshold).toRat < x.toRat) :
    (passes rts c).hpa.Spec.MinReplicas
        = some (min (m + 2 * (rts.length : Int)) c.tuner.Spec.HpaMaxCeilingReplicas) ∧
      (rts ≠ [] → (passes rts c).hpa.Spec.MaxReplicas = c.tuner.Spec.HpaMaxCeilingReplicas) ∧
      (∀ rt, (∃ x, getErrorRate rt c.tuner.Spec.MetricEndpoint = .ok x ∧
          (float64OfInt64 c.tuner.Spec.MetricThreshold).toRat < x.toRat) →
        ∃ a b, (passes rts c).hpa.Spec.MinReplicas = some a ∧
          (pass rt (passes rts c)).hpa.Spec.MinReplicas = some b ∧ a ≤ b) ∧
      ((c.tuner.Spec.HpaMaxCeilingReplicas - m + 1) / 2 ≤ (rts.length : Int) →
        (passes rts c).hpa.Spec.MinReplicas = some c.tuner.Spec.HpaMaxCeilingReplicas) ∧
      (m = c.tuner.Spec.HpaMaxCeilingReplicas →
        c.hpa.Spec.MaxReplicas = c.tuner.Spec.HpaMaxCeilingReplicas →
        ∀ rt, (∃ x, getErrorRate rt c.tuner.Spec.MetricEndpoint = .ok x ∧
          (float64OfInt64 c.tuner.Spec.MetricThreshold).toRat < x.toRat) →
        (pass rt c).hpa = c.hpa) := by
  obtain ⟨h1, h2, -, -, -⟩ := passes_breach rts c m hname hns hM h32 hle hov hb
  refine ⟨h1, h2, ?_, ?_, ?_⟩
  · intro rt hrt
    have hb1 : ∀ rt1 ∈ rts ++ [rt], ∃ x,
        getErrorRate rt1 c.tuner.Spec.MetricEndpoint = .ok x ∧
        (float64OfInt64 c.tuner.Spec.MetricThreshold).toRat < x.toRat := by
      intro rt1 hmem
      rcases List.mem_append.mp hmem with h | h
      · exact hb rt1 h
      · rw [List.mem_singleton.mp h]
        exact hrt
    obtain ⟨g1, -, -, -, -⟩ := passes_breach (rts ++ [rt]) c m hname hns hM h32 hle hov hb1
    rw [passes_append] at g1
    refine ⟨_, _, h1, g1, ?_⟩
    simp only [List.length_append, List.length_singleton]
    push_cast
    exact min_le_min (by omega) (le_refl _)
  · intro hk
    rw [h1, min_eq_right (by omega)]
  · intro hmc hmax rt hrt
    obtain ⟨x, hE, hlt⟩ := hrt
    rw [pass_breach c rt m x hname hns hM hE ((Float64.gt_iff _ _).mpr hlt),
      addInt32_two m h32 (by omega), min_eq_right (by omega)]
    obtain ⟨tuner, hpa⟩ := c
    obtain ⟨v, k, n, ns, spec⟩ := hpa
    obtain ⟨ref, mn, mx⟩ := spec
    simp only at hM hmax hmc
    simp only [hM, hmax, hmc]

/-- Ceiling 10, start (2, 10), three breaching passes with metric 7 above
threshold 5: the min is `min (2 + 6) 10 = 8` and the max is 10. -/
theorem C10_consecutive_breaches_witness :
    (passes [demoRuntime (.ok (Float64.mk 7 0)) "7.00",
        demoRuntime (.ok (Float64.mk 7 0)) "7.00",
        demoRuntime (.ok (Float64.mk 7 0)) "7.00"]
      { tuner := demoTuner 5 10, hpa := demoHpa (some 2) 10 }).hpa.Spec.MinReplicas = some 8 ∧
    (passes [demoRuntime (.ok (Float64.mk 7 0)) "7.00",
        demoRuntime (.ok (Float64.mk 7 0)) "7.00",
        demoRuntime (.ok (Float64.mk 7 0)) "7.00"]
      { tuner := demoTuner 5 10, hpa := demoHpa (some 2) 10 }).hpa.Spec.MaxReplicas = 10 := by
  have h := C10_consecutive_breaches
    { tuner := demoTuner 5 10, hpa := demoHpa (some 2) 10 } 2
    [demoRuntime (.ok (Float64.mk 7 0)) "7.00",
      demoRuntime (.ok (Float64.mk 7 0)) "7.00",
      demoRuntime (.ok (Float64.mk 7 0)) "7.00"]
    rfl rfl rfl (by decide) (by decide) (by decide)
    (by
      intro rt hrt
      have hrt1 : rt = demoRuntime (.ok (Float64.mk 7 0)) "7.00" := by
        simpa using hrt
      subst hrt1
      refine ⟨Float64.mk 7 0, rfl, ?_⟩
      rw [float64OfInt64_exact _ (by decide)]
      norm_num [Float64.toRat, demoTuner])
  exact ⟨h.1, h.2.1 (by simp)⟩

end Controller
